import Mathlib

/-!
A verification development for a minimal object-relational mapper (`orm.py`).

The embedding is shallow: Python classes become inductive types / structures,
methods become Lean functions, the global parameter-name counter (`counter =
count()`) becomes an explicit `Nat` threaded through `Condition.to_sql`,
Python exceptions become an `Except Err` result, and Python `dict` update /
`{**a, **b}` merge become `dictInsert` / `dictMerge` on association lists.
The sqlite layer is an external collaborator; its row-filtering behaviour is
modelled from the spec where needed.
-/

namespace Orm

/-- The declared type of a field annotation: `int`, `str`, a `Model` subclass
(a schema reference carrying the referenced class's `__name__`, its table name
`_name` and its declared columns `_cols`), or any other Python type,
identified by name. -/
inductive PyType where
  | int : PyType
  | str : PyType
  | ref (className : String) (tableName : String) (cols : List (String × PyType)) : PyType
  | other (tyName : String) : PyType

/-- `Field(name, py_type)` from the source: one declared attribute of a
schema. -/
structure Field where
  name : String
  py_type : PyType

/-- Python runtime values the ORM manipulates: `None`, `int`, `str`, a model
instance (its `_values` mapping tagged with its class name), or a `Field`
descriptor object (descriptors are first-class values and may appear as the
right-hand side of a comparison). -/
inductive Value where
  | vNone : Value
  | vInt (n : Int) : Value
  | vStr (s : String) : Value
  | vInst (className : String) (values : List (String × Value)) : Value
  | vField (f : Field) : Value

/-- An instance's `_values` mapping, and also parameter mappings: a Python
`dict` from names to values, represented as an insertion-ordered association
list with unique keys. -/
abbrev Dict := List (String × Value)

/-- Python `d[key] = v`: replace in place if the key is present, else append
at the end (insertion order is preserved, as for Python dicts). -/
def dictInsert (d : Dict) (key : String) (v : Value) : Dict :=
  if d.any (fun p => p.1 == key) then
    d.map (fun p => if p.1 == key then (key, v) else p)
  else d ++ [(key, v)]

/-- Python `{**d1, **d2}`: start from `d1` and insert every entry of `d2` in
order (a colliding key keeps its position in `d1` but takes the value from
`d2`). -/
def dictMerge (d1 d2 : Dict) : Dict :=
  d2.foldl (fun d p => dictInsert d p.1 p.2) d1

/-- The condition tree: `Condition(op, field, value)` is a comparison leaf,
`BoolCondition(op, cond1, cond2)` is a boolean interior node. -/
inductive Condition where
  | comp (op : String) (field : Field) (value : Value) : Condition
  | bool (op : String) (cond1 : Condition) (cond2 : Condition) : Condition

/-- The parameter token `f"var{next(counter)}"` minted from the global
counter's current value. -/
def placeholder (ctr : Nat) : String := "var" ++ Nat.repr ctr

/-- `Condition.to_sql` / `BoolCondition.to_sql` with the global counter made
explicit: takes the counter's current value and returns
`((predicate_text, parameter_mapping), next_counter)`.  A leaf mints
`f"var{next(counter)}"` and returns `f"{field.name} {op} :{placeholder}"`
with `{placeholder: value}`; an interior node lowers both sides left to
right and returns `f"{sql1} {op} {sql2}"` with `{**vals1, **vals2}`. -/
def Condition.to_sql : Condition → Nat → (String × Dict) × Nat
  | .comp op field value, ctr =>
      ((field.name ++ " " ++ op ++ " :" ++ placeholder ctr,
        [(placeholder ctr, value)]), ctr + 1)
  | .bool op cond1 cond2, ctr =>
      let r1 := Condition.to_sql cond1 ctr
      let r2 := Condition.to_sql cond2 r1.2
      ((r1.1.1 ++ " " ++ op ++ " " ++ r2.1.1, dictMerge r1.1.2 r2.1.2), r2.2)

/-- `Field.__eq__`: comparing a field with any value builds a comparison
leaf with operator `"="`; it never returns a boolean. -/
def Field.eq (f : Field) (value : Value) : Condition :=
  .comp "=" f value

/-- `Condition.__or__`: combining two condition trees with `|` builds a
`BoolCondition` with operator `"OR"`. -/
def Condition.or (c1 c2 : Condition) : Condition :=
  .bool "OR" c1 c2

/-- Number of comparison leaves of a condition tree; each leaf consumes
exactly one counter value when lowered. -/
def Condition.leafCount : Condition → Nat
  | .comp .. => 1
  | .bool _ c1 c2 => c1.leafCount + c2.leafCount

/-! ### Injectivity of the minted parameter tokens

`placeholder` is `"var" ++ Nat.repr ctr`; distinct counter values give
distinct tokens because the decimal rendering of a natural number can be
decoded back.  We prove the round trip against core's `Nat.toDigitsCore`. -/

/-- Decimal value of a digit character. -/
def charToDigit (c : Char) : Nat := c.toNat - 48

/-- One step of reading a decimal numeral left to right. -/
def digitStep (a : Nat) (c : Char) : Nat := 10 * a + charToDigit c

/-- Read a list of digit characters as a decimal numeral. -/
def decodeDigits (l : List Char) : Nat := l.foldl digitStep 0

theorem charToDigit_digitChar : ∀ m, m < 10 → charToDigit (Nat.digitChar m) = m := by
  decide

theorem foldl_digitStep_shift (l : List Char) :
    ∀ a, l.foldl digitStep a = a * 10 ^ l.length + l.foldl digitStep 0 := by
  induction l with
  | nil => intro a; simp
  | cons c t ih =>
      intro a
      have h1 := ih (digitStep a c)
      have h2 := ih (digitStep 0 c)
      simp only [List.foldl_cons, List.length_cons] at *
      rw [h1, h2]
      simp only [digitStep, charToDigit]
      ring

theorem toDigitsCore_decode (fuel : Nat) : ∀ n ds, n < 10 ^ (fuel + 1) →
    ∃ xs, Nat.toDigitsCore 10 (fuel + 1) n ds = xs ++ ds ∧ xs ≠ [] ∧
      ∀ a, List.foldl digitStep a (xs ++ ds) =
        List.foldl digitStep (a * 10 ^ xs.length + n) ds := by
  induction fuel with
  | zero =>
      intro n ds hn
      have hn10 : n < 10 := by simpa using hn
      have hdiv : n / 10 = 0 := Nat.div_eq_of_lt hn10
      refine ⟨[Nat.digitChar (n % 10)], ?_, by simp, ?_⟩
      · simp [Nat.toDigitsCore, hdiv]
      · intro a
        have hmod : n % 10 = n := Nat.mod_eq_of_lt hn10
        simp only [List.singleton_append, List.foldl_cons, List.length_singleton,
          digitStep, hmod, charToDigit_digitChar n hn10, pow_one]
        rw [Nat.mul_comm 10 a]
  | succ fuel ih =>
      intro n ds hn
      by_cases hdiv : n / 10 = 0
      · have hn10 : n < 10 := (Nat.div_eq_zero_iff (by norm_num)).1 hdiv
        refine ⟨[Nat.digitChar (n % 10)], ?_, by simp, ?_⟩
        · simp [Nat.toDigitsCore, hdiv]
        · intro a
          have hmod : n % 10 = n := Nat.mod_eq_of_lt hn10
          simp only [List.singleton_append, List.foldl_cons, List.length_singleton,
            digitStep, hmod, charToDigit_digitChar n hn10, pow_one]
          rw [Nat.mul_comm 10 a]
      · have hlt : n / 10 < 10 ^ (fuel + 1) := by
          rw [Nat.div_lt_iff_lt_mul (show 0 < 10 by norm_num)]
          calc n < 10 ^ (fuel + 1 + 1) := hn
            _ = 10 ^ (fuel + 1) * 10 := by ring
        obtain ⟨xs', heq, hne, hfold⟩ := ih (n / 10) (Nat.digitChar (n % 10) :: ds) hlt
        refine ⟨xs' ++ [Nat.digitChar (n % 10)], ?_, by simp [hne], ?_⟩
        · have : Nat.toDigitsCore 10 (fuel + 1 + 1) n ds
              = Nat.toDigitsCore 10 (fuel + 1) (n / 10) (Nat.digitChar (n % 10) :: ds) := by
            simp [Nat.toDigitsCore, hdiv]
          rw [this, heq]
          simp
        · intro a
          have h1 : (xs' ++ [Nat.digitChar (n % 10)]) ++ ds
              = xs' ++ (Nat.digitChar (n % 10) :: ds) := by simp
          rw [h1, hfold a]
          simp only [List.foldl_cons, digitStep]
          have hd : charToDigit (Nat.digitChar (n % 10)) = n % 10 :=
            charToDigit_digitChar (n % 10) (Nat.mod_lt _ (by norm_num))
          rw [hd]
          have hlen : (xs' ++ [Nat.digitChar (n % 10)]).length = xs'.length + 1 := by simp
          rw [hlen]
          congr 1
          rw [pow_succ, ← Nat.mul_assoc]
          generalize a * 10 ^ xs'.length = q
          omega

theorem decode_toDigits (n : Nat) : decodeDigits (Nat.toDigits 10 n) = n := by
  have hbound : n < 10 ^ (n + 1) := by
    calc n < 2 ^ n := Nat.lt_two_pow n
      _ ≤ 10 ^ n := Nat.pow_le_pow_left (by norm_num) n
      _ ≤ 10 ^ (n + 1) := Nat.pow_le_pow_right (by norm_num) (Nat.le_succ n)
  obtain ⟨xs, heq, -, hfold⟩ := toDigitsCore_decode n n [] hbound
  have : Nat.toDigits 10 n = xs ++ [] := heq
  rw [decodeDigits, this]
  have := hfold 0
  simpa using this

theorem nat_repr_inj : Function.Injective Nat.repr := by
  intro n m h
  have hdata : (Nat.toDigits 10 n) = (Nat.toDigits 10 m) := by
    have := congrArg String.data h
    simpa [Nat.repr, List.asString] using this
  have := congrArg decodeDigits hdata
  rwa [decode_toDigits, decode_toDigits] at this

theorem placeholder_inj : Function.Injective placeholder := by
  intro n m h
  apply nat_repr_inj
  have hdata := congrArg String.data h
  simp only [placeholder, String.data_append] at hdata
  exact String.ext (List.append_cancel_left hdata)

/-! ### Dict lemmas -/

theorem dictInsert_of_not_mem (d : Dict) (key : String) (v : Value)
    (h : key ∉ d.map Prod.fst) : dictInsert d key v = d ++ [(key, v)] := by
  rw [dictInsert, if_neg]
  intro hany
  rw [List.any_eq_true] at hany
  obtain ⟨p, hp, hpk⟩ := hany
  exact h (List.mem_map.2 ⟨p, hp, (beq_iff_eq.1 hpk)⟩)

theorem dictMerge_of_disjoint (d1 d2 : Dict)
    (hdis : ∀ k ∈ d2.map Prod.fst, k ∉ d1.map Prod.fst)
    (hnd : (d2.map Prod.fst).Nodup) : dictMerge d1 d2 = d1 ++ d2 := by
  induction d2 generalizing d1 with
  | nil => simp [dictMerge]
  | cons p t ih =>
      obtain ⟨k, v⟩ := p
      rw [List.map_cons, List.nodup_cons] at hnd
      have hk : k ∉ d1.map Prod.fst := hdis k (by simp)
      have step : dictMerge d1 ((k, v) :: t) = dictMerge (d1 ++ [(k, v)]) t := by
        simp only [dictMerge, List.foldl_cons]
        rw [dictInsert_of_not_mem d1 k v hk]
      have hdis' : ∀ k' ∈ t.map Prod.fst, k' ∉ (d1 ++ [(k, v)]).map Prod.fst := by
        intro k' hk'
        have h1 := hdis k' (by simp [List.mem_map] at hk' ⊢; tauto)
        rw [List.map_append]
        intro hmem
        rcases List.mem_append.1 hmem with h | h
        · exact h1 h
        · simp only [List.map_cons, List.map_nil, List.mem_singleton] at h
          subst h
          exact hnd.1 hk'
      rw [step, ih (d1 ++ [(k, v)]) hdis' hnd.2]
      simp

/-! ### The counter and parameter mapping produced by lowering -/

/-- Lowering a condition tree starting at counter value `ctr` advances the
counter by the number of leaves, and the keys of the produced parameter
mapping are exactly the tokens minted for the counter values
`ctr, ctr+1, …` — one per leaf, in order. -/
theorem to_sql_spec (c : Condition) : ∀ ctr : Nat,
    (c.to_sql ctr).2 = ctr + c.leafCount ∧
    ((c.to_sql ctr).1.2).map Prod.fst = (List.range' ctr c.leafCount).map placeholder := by
  induction c with
  | comp op field value =>
      intro ctr
      simp [Condition.to_sql, Condition.leafCount, List.range']
  | bool op c1 c2 ih1 ih2 =>
      intro ctr
      obtain ⟨hc1, hk1⟩ := ih1 ctr
      obtain ⟨hc2, hk2⟩ := ih2 ((c1.to_sql ctr).2)
      have hdis : ∀ k ∈ ((c2.to_sql ((c1.to_sql ctr).2)).1.2).map Prod.fst,
          k ∉ ((c1.to_sql ctr).1.2).map Prod.fst := by
        intro k hk2m hk1m
        rw [hk2] at hk2m
        rw [hk1] at hk1m
        obtain ⟨i, hi, hik⟩ := List.mem_map.1 hk2m
        obtain ⟨j, hj, hjk⟩ := List.mem_map.1 hk1m
        have : i = j := placeholder_inj (hik.trans hjk.symm)
        subst this
        rw [List.mem_range'_1] at hi hj
        omega
      have hnd2 : (((c2.to_sql ((c1.to_sql ctr).2)).1.2).map Prod.fst).Nodup := by
        rw [hk2]
        exact (List.nodup_range' _ _).map placeholder_inj
      constructor
      · simp only [Condition.to_sql, Condition.leafCount]
        rw [hc2, hc1]
        omega
      · simp only [Condition.to_sql, Condition.leafCount]
        rw [dictMerge_of_disjoint _ _ hdis hnd2]
        rw [List.map_append, hk1, hk2, hc1, ← List.map_append, List.range'_append_1]
        rw [Nat.add_comm c2.leafCount c1.leafCount]

/-- The keys of any lowered parameter mapping are pairwise distinct, and
there are exactly as many of them as the tree has leaves. -/
theorem to_sql_keys_nodup (c : Condition) (ctr : Nat) :
    (((c.to_sql ctr).1.2).map Prod.fst).Nodup ∧
    ((c.to_sql ctr).1.2).length = c.leafCount := by
  have h := (to_sql_spec c ctr).2
  constructor
  · rw [h]
    exact (List.nodup_range' _ _).map placeholder_inj
  · have := congrArg List.length h
    simpa using this

/-- The two parameter mappings produced by lowering two condition trees at
consecutive counter ranges have disjoint key sets, so their Python-dict
merge `{**vals1, **vals2}` is plain concatenation. -/
theorem to_sql_merge_append (c1 c2 : Condition) (ctr : Nat) :
    dictMerge ((c1.to_sql ctr).1.2) ((c2.to_sql ((c1.to_sql ctr).2)).1.2)
      = (c1.to_sql ctr).1.2 ++ (c2.to_sql ((c1.to_sql ctr).2)).1.2 := by
  obtain ⟨hc1, hk1⟩ := to_sql_spec c1 ctr
  obtain ⟨hc2, hk2⟩ := to_sql_spec c2 ((c1.to_sql ctr).2)
  apply dictMerge_of_disjoint
  · intro k hk2m hk1m
    rw [hk2] at hk2m
    rw [hk1] at hk1m
    obtain ⟨i, hi, hik⟩ := List.mem_map.1 hk2m
    obtain ⟨j, hj, hjk⟩ := List.mem_map.1 hk1m
    have : i = j := placeholder_inj (hik.trans hjk.symm)
    subst this
    rw [List.mem_range'_1] at hi hj
    omega
  · rw [hk2]
    exact (List.nodup_range' _ _).map placeholder_inj

/-! ### Claims about the condition tree -/

/-- C1: parameter tokens are globally unique.  Lowering a tree that combines
two comparison leaves on the same field yields a parameter mapping with
exactly two entries whose keys are distinct, and for every condition tree
the lowered parameter mapping has exactly one entry per leaf with
pairwise-distinct keys — an interior node's merged mapping never loses an
entry to a name collision. -/
theorem claim_C1_unique_parameter_tokens :
    (∀ (f : Field) (op1 op2 bop : String) (v1 v2 : Value) (ctr : Nat),
      ((((Condition.bool bop (.comp op1 f v1) (.comp op2 f v2)).to_sql ctr).1.2).map
        Prod.fst).Nodup ∧
      (((Condition.bool bop (.comp op1 f v1) (.comp op2 f v2)).to_sql ctr).1.2).length = 2) ∧
    (∀ (c : Condition) (ctr : Nat),
      (((c.to_sql ctr).1.2).map Prod.fst).Nodup ∧
      ((c.to_sql ctr).1.2).length = c.leafCount) := by
  refine ⟨fun f op1 op2 bop v1 v2 ctr => ?_, fun c ctr => to_sql_keys_nodup c ctr⟩
  exact to_sql_keys_nodup (Condition.bool bop (.comp op1 f v1) (.comp op2 f v2)) ctr

/-- C2 counterexample: lowering `duration == 45 OR duration == 60` (built
with `Field.__eq__` and `Condition.__or__`) produces the predicate text
without parentheses around the subtree texts, so the claimed shape
`"(<left_text>) <bool_op> (<right_text>)"` does not hold. -/
theorem claim_C2_counterexample :
    ((((Field.mk "duration" .int).eq (.vInt 45)).or
        ((Field.mk "duration" .int).eq (.vInt 60))).to_sql 0).1.1
      = "duration = :var0 OR duration = :var1" ∧
    ((((Field.mk "duration" .int).eq (.vInt 45)).or
        ((Field.mk "duration" .int).eq (.vInt 60))).to_sql 0).1.1
      ≠ "(duration = :var0) OR (duration = :var1)" := by
  exact ⟨rfl, by decide⟩

/-- C2 amended: an interior boolean node recursively lowers both subtrees
left to right and returns the predicate text
`"<left_text> <bool_op> <right_text>"` — without parentheses around the
subtree texts — together with the merged parameter mapping of both sides,
and that merge keeps every entry of both mappings (it is their
concatenation, since the token keys never collide). -/
theorem claim_C2_bool_lowering (bop : String) (c1 c2 : Condition) (ctr : Nat) :
    (Condition.bool bop c1 c2).to_sql ctr =
      (((c1.to_sql ctr).1.1 ++ " " ++ bop ++ " " ++ (c2.to_sql ((c1.to_sql ctr).2)).1.1,
        (c1.to_sql ctr).1.2 ++ (c2.to_sql ((c1.to_sql ctr).2)).1.2),
       (c2.to_sql ((c1.to_sql ctr).2)).2) := by
  show (((c1.to_sql ctr).1.1 ++ " " ++ bop ++ " " ++ (c2.to_sql ((c1.to_sql ctr).2)).1.1,
        dictMerge (c1.to_sql ctr).1.2 (c2.to_sql ((c1.to_sql ctr).2)).1.2),
       (c2.to_sql ((c1.to_sql ctr).2)).2) = _
  rw [to_sql_merge_append]

/-- C6: lowering a comparison leaf `Condition(op, field, value)` at counter
value `ctr` mints the token for `ctr`, returns exactly the predicate text
`"<field> <op> :<token>"` with the single-entry mapping `{token: value}`,
and advances the counter; tokens minted for distinct counter values are
distinct, which makes every allocation globally unique. -/
theorem claim_C6_leaf_lowering :
    (∀ (op : String) (f : Field) (v : Value) (ctr : Nat),
      (Condition.comp op f v).to_sql ctr =
        ((f.name ++ " " ++ op ++ " :" ++ placeholder ctr,
          [(placeholder ctr, v)]), ctr + 1)) ∧
    (∀ ctr ctr' : Nat, ctr ≠ ctr' → placeholder ctr ≠ placeholder ctr') := by
  refine ⟨fun op f v ctr => rfl, fun ctr ctr' hne h => hne (placeholder_inj h)⟩

theorem claim_C6_leaf_lowering_witness :
    (0 : Nat) ≠ 1 ∧ placeholder 0 ≠ placeholder 1 :=
  ⟨by decide, claim_C6_leaf_lowering.2 0 1 (by decide)⟩

/-- C9: `Field.__eq__` applied to any value — including another field
descriptor — evaluates to the comparison leaf `Condition("=", field, value)`
holding the descriptor and the value; its result is a condition tree, never
a boolean truth value, so two descriptors are never compared for equality as
booleans through this operator. -/
theorem claim_C9_field_eq :
    (∀ (f : Field) (v : Value), f.eq v = Condition.comp "=" f v) ∧
    (∀ f g : Field, f.eq (.vField g) = Condition.comp "=" f (.vField g)) :=
  ⟨fun _ _ => rfl, fun _ _ => rfl⟩

/-! ### Fields, instances, and the store -/

/-- Python exceptions the embedded operations can raise. -/
inductive Err where
  | stopIteration : Err
  | keyError (key : String) : Err
  | attributeError : Err
  | recursionError : Err
deriving DecidableEq

/-- `Field.sql_type`: `INTEGER` for a Model-subclass (reference) field,
otherwise the lookup `{int: "INTEGER", str: "TEXT"}[self.py_type]`, which
raises `KeyError` for any other declared type. -/
def Field.sql_type (f : Field) : Except Err String :=
  match f.py_type with
  | .ref _ _ _ => .ok "INTEGER"
  | .int => .ok "INTEGER"
  | .str => .ok "TEXT"
  | .other tyName => .error (.keyError tyName)

/-- `Field.to_sql(value)`: for a Model-subclass field, `value.id` — an
attribute access that raises `AttributeError` when the value is not a model
instance, and otherwise reads the (possibly `None`) identifier from the
instance's `_values`; for every other declared type the value is returned
unchanged. -/
def Field.to_sql (f : Field) (value : Value) : Except Err Value :=
  match f.py_type with
  | .ref _ _ _ =>
      match value with
      | .vInst _ values =>
          match values.lookup "id" with
          | some idv => .ok idv
          | none => .error (.keyError "id")
      | _ => .error .attributeError
  | _ => .ok value

/-- A raw row returned by the store: an ordered mapping from column name to
value. -/
abbrev Row := List (String × Value)

/-- The external relational store, as the core observes it through reads:
table name to the finite sequence of rows the table yields. -/
abbrev Store := List (String × List Row)

/-- The rows the store yields for a table (none for an unknown table). -/
def storeRows (store : Store) (tableName : String) : List Row :=
  (store.lookup tableName).getD []

/-- Modelled from the spec: how the external sqlite engine (the Store
Gateway of §6, absent from `src/`) evaluates SQL `=` between a stored
column value and a bound parameter — integers and strings compare by
value, `NULL` compares equal to nothing, and non-primitive values match
nothing. -/
def sqlValueEq : Value → Value → Bool
  | .vInt a, .vInt b => a == b
  | .vStr a, .vStr b => a == b
  | _, _ => false

/-- Modelled from the spec: the Store Gateway's row filtering for
`SELECT * FROM <table> WHERE <predicate>` with the lowered parameterized
predicate (§4.2, §6): a comparison leaf `field op :tok` is satisfied iff
the row's value in that column stands in SQL relation `op` (the code only
generates `=`) to the bound parameter, and an `OR` node iff either side is
satisfied. -/
def evalCondition : Condition → Row → Bool
  | .comp op f v, row =>
      op == "=" && (match row.lookup f.name with
        | some w => sqlValueEq w v
        | none => false)
  | .bool op c1 c2, row =>
      op == "OR" && (evalCondition c1 row || evalCondition c2 row)

/-- The rows produced by the resolution query
`self.py_type.select(self.py_type.id == value)` issued by `Field.__set__`:
the referenced table's rows whose `id` column equals `k`, in store
order. -/
def rowsMatchingId (store : Store) (tableName : String) (k : Int) : List Row :=
  (storeRows store tableName).filter
    (evalCondition ((Field.mk "id" .int).eq (.vInt k)))

/-- Constructing and populating a model instance: `cls(**kwargs)` starts
from `_values = {"id": None}` and runs `setattr` for each keyword argument
in order, each routed through `Field.__set__`.  The implicit `id`
descriptor (declared `int`, installed last so it wins over any annotated
column of that name) stores its value unchanged.  A key matching a declared
column of Model-subclass type assigned a raw `int` triggers eager
resolution: the referenced table is queried for `id == value` and the first
matching row is hydrated by a fresh recursive construction — `next()` on an
empty result raises `StopIteration`.  Every other value is stored
unchanged, and a key matching no descriptor becomes a plain attribute,
leaving `_values` untouched.  `fuel` bounds the recursion depth, as
Python's recursion limit does. -/
def hydrate (store : Store) (fuel : Nat) (cols : List (String × PyType))
    (kwargs : List (String × Value)) (values : Dict) : Except Err Dict :=
  match fuel, kwargs with
  | 0, _ => .error .recursionError
  | _ + 1, [] => .ok values
  | fuel + 1, (key, v) :: kwargs =>
      if key = "id" then hydrate store fuel cols kwargs (dictInsert values "id" v)
      else
        match (cols.find? (fun p => p.1 == key)).map Prod.snd with
        | none => hydrate store fuel cols kwargs values
        | some ty =>
            match ty, v with
            | .ref className tableName tcols, .vInt k =>
                match rowsMatchingId store tableName k with
                | [] => .error .stopIteration
                | r :: _ =>
                    match hydrate store fuel tcols r [("id", .vNone)] with
                    | .error e => .error e
                    | .ok ivalues =>
                        hydrate store fuel cols kwargs
                          (dictInsert values key (.vInst className ivalues))
            | _, _ => hydrate store fuel cols kwargs (dictInsert values key v)
  termination_by structural fuel

/-- `Field.__set__(instance, value)` on its own: when the declared type is
a Model subclass and the assigned value is a raw `int`, resolve
`next(self.py_type.select(self.py_type.id == value))` — `StopIteration`
when no row matches, otherwise the first matching row is hydrated — and
store the resolved instance under the field's name; every other value is
stored unchanged. -/
def Field.set (store : Store) (fuel : Nat) (f : Field) (values : Dict) (v : Value) :
    Except Err Dict :=
  match f.py_type, v with
  | .ref className tableName tcols, .vInt k =>
      match rowsMatchingId store tableName k with
      | [] => .error .stopIteration
      | r :: _ =>
          match hydrate store fuel tcols r [("id", .vNone)] with
          | .error e => .error e
          | .ok ivalues => .ok (dictInsert values f.name (.vInst className ivalues))
  | _, _ => .ok (dictInsert values f.name v)

/-- A registered model class: `_name` (the table name) and `_cols` (the
annotated fields in declaration order; the implicit `id` descriptor is
installed on the class but not recorded in `_cols`). -/
structure Model where
  className : String
  tableName : String
  cols : List (String × PyType)

/-- Python `str.lower()`: lowercase the string character by character. -/
def pyLower (s : String) : String := String.mk (s.data.map Char.toLower)

/-- `Model.__init_subclass__`: derives `_name` as
`f"{cls.__name__.lower()}s"` — the lowercased class name suffixed with
`"s"` — and collects the type annotations, in declaration order, as
`_cols`. -/
def initSubclass (className : String) (annotations : List (String × PyType)) : Model :=
  ⟨className, pyLower className ++ "s", annotations⟩

/-- `Model.__init__(**kwargs)` for a registered class. -/
def Model.init (store : Store) (fuel : Nat) (m : Model) (kwargs : List (String × Value)) :
    Except Err Dict :=
  hydrate store fuel m.cols kwargs [("id", .vNone)]

/-- The generator `f"{name} {field.sql_type()}" for name, field in
cls._cols.items()`, evaluated left to right; the first `sql_type` failure
propagates. -/
def colPieces : List (String × PyType) → Except Err (List String)
  | [] => .ok []
  | p :: rest => do
      let t ← Field.sql_type ⟨p.1, p.2⟩
      let more ← colPieces rest
      pure ((p.1 ++ " " ++ t) :: more)

/-- `Model.create`: the emitted `CREATE TABLE` statement, listing every
declared column with its `sql_type()` after the implicit integer primary
key; deriving a column type can raise. -/
def Model.create (m : Model) : Except Err String := do
  let pieces ← colPieces m.cols
  pure ("CREATE TABLE " ++ m.tableName ++ " (id INTEGER PRIMARY KEY, " ++
    String.intercalate ", " pieces ++ ")")

/-- `Model.delete`: the emitted `DROP TABLE IF EXISTS` statement. -/
def Model.delete (m : Model) : String :=
  "DROP TABLE IF EXISTS " ++ m.tableName

/-- Python truthiness of a stored value, as `if self.id:` tests it: `None`,
`0` and `""` are falsy; a nonzero integer, a nonempty string, and any
plain object are truthy. -/
def truthy : Value → Bool
  | .vNone => false
  | .vInt n => n != 0
  | .vStr s => s != ""
  | .vInst _ _ => true
  | .vField _ => true

/-- `getattr(instance, name)` through `Field.__get__`: reads
`_values[name]`, raising `KeyError` when that field was never assigned. -/
def getattrV (values : Dict) (name : String) : Except Err Value :=
  match values.lookup name with
  | some v => .ok v
  | none => .error (.keyError name)

/-- The dict comprehension
`{name: field.to_sql(getattr(self, name)) for name, field in _cols.items()}`
computed by `save`, entry by entry in declaration order; the first
`KeyError`/`AttributeError` propagates. -/
def saveValues (values : Dict) : List (String × PyType) → Except Err Dict
  | [] => .ok []
  | p :: rest => do
      let v ← getattrV values p.1
      let w ← Field.to_sql ⟨p.1, p.2⟩ v
      let more ← saveValues values rest
      pure ((p.1, w) :: more)

/-- `Model.save`, with the generated identifier the Store Gateway returns
for an insert (`cursor.lastrowid`) passed in as `gen`: computes
`values = {name: field.to_sql(getattr(self, name)) for name in _cols}`,
then branches on the truthiness of `self.id` — truthy: emit the `UPDATE`
statement binding `{"id": self.id, **values}`, `_values` unchanged; falsy:
emit the `INSERT` statement over the declared columns binding `values` and
assign `self.id = gen`.  Returns `(statement, bound parameters,
new _values)`. -/
def Model.save (m : Model) (values : Dict) (gen : Int) : Except Err (String × Dict × Dict) := do
  let sqlValues ← saveValues values m.cols
  let idv ← getattrV values "id"
  if truthy idv then
    pure ("UPDATE " ++ m.tableName ++ " SET " ++
        String.intercalate ", " (m.cols.map (fun p => p.1 ++ " = :" ++ p.1)) ++
        " WHERE id=:id",
      dictMerge [("id", idv)] sqlValues, values)
  else
    pure ("INSERT INTO " ++ m.tableName ++ " (" ++
        String.intercalate ", " (m.cols.map Prod.fst) ++ ") VALUES (" ++
        String.intercalate ", " (m.cols.map (fun p => ":" ++ p.1)) ++ ")",
      sqlValues, dictInsert values "id" (.vInt gen))

/-- `Model.select(where=None)`: the table's rows filtered by the lowered
predicate (the Store Gateway's evaluation is `evalCondition`; no `where`
means the always-true `1=1`), each constructed into an instance via
`cls(**dict(row))`. -/
def Model.select (store : Store) (fuel : Nat) (m : Model) (whereC : Option Condition) :
    Except Err (List Dict) :=
  let rows := match whereC with
    | some c => (storeRows store m.tableName).filter (evalCondition c)
    | none => storeRows store m.tableName
  rows.mapM (Model.init store fuel m)

/-- Wellformedness of the external store: every raw row is an ordered
mapping with unique column names, as sqlite rows of a single table are. -/
def storeWF (store : Store) : Prop :=
  ∀ p ∈ store, ∀ r ∈ p.2, ((r.map Prod.fst).Nodup)

/-! ### Lookup behaviour of dict update -/

theorem lookup_replace_self (d : Dict) (key : String) (v : Value)
    (hany : d.any (fun p => p.1 == key) = true) :
    (d.map (fun p => if p.1 == key then (key, v) else p)).lookup key = some v := by
  induction d with
  | nil => simp at hany
  | cons p t ih =>
      obtain ⟨a, b⟩ := p
      simp only [List.any_cons, Bool.or_eq_true] at hany
      simp only [List.map_cons]
      by_cases hak : (a == key) = true
      · rw [if_pos hak]
        exact List.lookup_cons_self
      · rw [if_neg (by simpa using hak)]
        rw [List.lookup_cons]
        have hka : (key == a) = false := by
          have : ¬a = key := by simpa using hak
          simpa using fun h => this h.symm
        rw [hka]
        rcases hany with h | h
        · exact absurd h hak
        · exact ih h

theorem lookup_replace_ne (d : Dict) (key key' : String) (v : Value)
    (hne : key' ≠ key) :
    (d.map (fun p => if p.1 == key then (key, v) else p)).lookup key' = d.lookup key' := by
  induction d with
  | nil => rfl
  | cons p t ih =>
      obtain ⟨a, b⟩ := p
      simp only [List.map_cons]
      by_cases hak : (a == key) = true
      · have haeq : a = key := by simpa using hak
        have h1 : (key' == key) = false := by simpa using hne
        have h2 : (key' == a) = false := by rw [haeq]; exact h1
        rw [if_pos hak, List.lookup_cons, List.lookup_cons, h1, h2]
        exact ih
      · rw [if_neg hak, List.lookup_cons, List.lookup_cons]
        cases hka : (key' == a) with
        | true => rfl
        | false => exact ih

theorem dictInsert_lookup_self (d : Dict) (key : String) (v : Value) :
    (dictInsert d key v).lookup key = some v := by
  by_cases hany : d.any (fun p => p.1 == key) = true
  · rw [dictInsert, if_pos hany]
    exact lookup_replace_self d key v hany
  · rw [dictInsert, if_neg hany]
    rw [List.lookup_append]
    have hnone : d.lookup key = none := by
      rw [List.lookup_eq_none_iff]
      intro p hp
      have h1 : (p.1 == key) = false := by
        by_contra hc
        exact hany (List.any_eq_true.2 ⟨p, hp, by simpa using hc⟩)
      have h2 : ¬key = p.1 := by
        intro h
        rw [h] at h1
        simp at h1
      simpa [bne] using h2
    rw [hnone]
    simp

theorem dictInsert_lookup_ne (d : Dict) (key key' : String) (v : Value)
    (hne : key' ≠ key) : (dictInsert d key v).lookup key' = d.lookup key' := by
  by_cases hany : d.any (fun p => p.1 == key) = true
  · rw [dictInsert, if_pos hany]
    exact lookup_replace_ne d key key' v hne
  · rw [dictInsert, if_neg hany]
    rw [List.lookup_append]
    have h1 : ([(key, v)] : Dict).lookup key' = none := by
      rw [List.lookup_cons]
      rw [show (key' == key) = false by simpa using hne]
      rfl
    rw [h1]
    cases d.lookup key' <;> rfl

/-! ### Small Except-monad computation rules -/

theorem except_bind_ok {α β : Type} (a : α) (f : α → Except Err β) :
    (Except.ok a >>= f) = f a := rfl

theorem except_bind_error {α β : Type} (e : Err) (f : α → Except Err β) :
    ((Except.error e : Except Err α) >>= f) = .error e := rfl

theorem except_pure_eq_ok {α : Type} (a : α) : (pure a : Except Err α) = .ok a := rfl

/-! ### Claims about field serialization and column types -/

/-- C7: `sql_type()` returns `INTEGER` when the declared type is a schema
reference or `int`, `TEXT` when it is `str`, and raises the
unsupported-type `KeyError` for any other declared type. -/
theorem claim_C7_sql_type :
    (∀ (name cn tn : String) (cols : List (String × PyType)),
      Field.sql_type ⟨name, .ref cn tn cols⟩ = .ok "INTEGER") ∧
    (∀ name : String, Field.sql_type ⟨name, .int⟩ = .ok "INTEGER") ∧
    (∀ name : String, Field.sql_type ⟨name, .str⟩ = .ok "TEXT") ∧
    (∀ name tyName : String,
      Field.sql_type ⟨name, .other tyName⟩ = .error (.keyError tyName)) :=
  ⟨fun _ _ _ _ => rfl, fun _ => rfl, fun _ => rfl, fun _ _ => rfl⟩

/-- C3 counterexample: serializing a reference to an unsaved record does
not fail.  For a `speaker` field referencing the Speaker schema and an
instance whose identifier is still `None`, `to_sql` returns `.ok .vNone` —
a successful result, not an unresolved-reference error. -/
theorem claim_C3_counterexample :
    Field.to_sql
        ⟨"speaker", .ref "Speaker" "speakers" [("name", .str), ("company", .str)]⟩
        (.vInst "Speaker" [("id", .vNone), ("name", .vStr "Jonathan")])
      = .ok .vNone :=
  rfl

/-- C3 amended: for a schema-reference field, `to_sql` extracts and returns
the referenced instance's identifier — including the null identifier of a
still-unsaved record, without raising any error — and for every
non-reference declared type it returns the value unchanged. -/
theorem claim_C3_to_sql (name cn tn : String) (cols : List (String × PyType))
    (cls : String) (ivalues : Dict) (idv : Value)
    (hid : ivalues.lookup "id" = some idv) :
    Field.to_sql ⟨name, .ref cn tn cols⟩ (.vInst cls ivalues) = .ok idv ∧
    (∀ v : Value, Field.to_sql ⟨name, .int⟩ v = .ok v) ∧
    (∀ v : Value, Field.to_sql ⟨name, .str⟩ v = .ok v) ∧
    (∀ (tyName : String) (v : Value), Field.to_sql ⟨name, .other tyName⟩ v = .ok v) := by
  refine ⟨?_, fun _ => rfl, fun _ => rfl, fun _ _ => rfl⟩
  simp only [Field.to_sql, hid]

theorem claim_C3_to_sql_witness :
    ([("id", Value.vNone), ("name", Value.vStr "Jonathan")] : Dict).lookup "id"
      = some .vNone ∧
    Field.to_sql ⟨"speaker", .ref "Speaker" "speakers" []⟩
        (.vInst "Speaker" [("id", .vNone), ("name", .vStr "Jonathan")])
      = .ok .vNone :=
  ⟨rfl,
   (claim_C3_to_sql "speaker" "Speaker" "speakers" [] "Speaker"
     [("id", .vNone), ("name", .vStr "Jonathan")] .vNone rfl).1⟩

/-! ### Claims about schema registration and table creation -/

/-- When every declared column type is supported, the column pieces of the
table-creation statement are exactly `"<name> <sql_type>"`, one per
declared field, in declaration order. -/
theorem colPieces_spec (annotations : List (String × PyType)) :
    ∀ tys : List String,
      (∀ i : Fin annotations.length,
        Field.sql_type ⟨(annotations.get i).1, (annotations.get i).2⟩
          = .ok (tys.getD i.1 "")) →
      tys.length = annotations.length →
      colPieces annotations
        = .ok ((annotations.zip tys).map (fun q => q.1.1 ++ " " ++ q.2)) := by
  induction annotations with
  | nil =>
      intro tys _ _
      rfl
  | cons p t ih =>
      intro tys hall hlen
      cases tys with
      | nil => simp at hlen
      | cons ty tys' =>
          have h0 := hall ⟨0, by simp⟩
          simp only [List.get] at h0
          have hrest : ∀ i : Fin t.length,
              Field.sql_type ⟨(t.get i).1, (t.get i).2⟩ = .ok (tys'.getD i.1 "") := by
            intro i
            have := hall ⟨i.1 + 1, Nat.succ_lt_succ i.2⟩
            simpa [List.get] using this
          have hlen' : tys'.length = t.length := by simpa using hlen
          rw [colPieces, h0, except_bind_ok, ih tys' hrest hlen', except_bind_ok]
          rfl

/-- C8: registering a record type derives its table name as the lowercased
type name with the plural `"s"` suffix, and `create_table()` emits the
table-creation statement that opens with the implicit `id` primary key and
lists every declared field with its `sql_type()`, in declaration order. -/
theorem claim_C8_create_table (className : String)
    (annotations : List (String × PyType)) (tys : List String)
    (hall : ∀ i : Fin annotations.length,
      Field.sql_type ⟨(annotations.get i).1, (annotations.get i).2⟩
        = .ok (tys.getD i.1 ""))
    (hlen : tys.length = annotations.length) :
    (initSubclass className annotations).tableName = pyLower className ++ "s" ∧
    Model.create (initSubclass className annotations) =
      .ok ("CREATE TABLE " ++ (pyLower className ++ "s") ++ " (id INTEGER PRIMARY KEY, " ++
        String.intercalate ", "
          ((annotations.zip tys).map (fun q => q.1.1 ++ " " ++ q.2)) ++ ")") := by
  refine ⟨rfl, ?_⟩
  show (do
    let pieces ← colPieces annotations
    pure ("CREATE TABLE " ++ (pyLower className ++ "s") ++ " (id INTEGER PRIMARY KEY, " ++
      String.intercalate ", " pieces ++ ")") : Except Err String) = _
  rw [colPieces_spec annotations tys hall hlen, except_bind_ok]
  rfl

theorem claim_C8_create_table_witness :
    (∀ i : Fin ([("name", PyType.str), ("company", PyType.str)].length),
      Field.sql_type ⟨([("name", PyType.str), ("company", PyType.str)].get i).1,
          ([("name", PyType.str), ("company", PyType.str)].get i).2⟩
        = .ok ((["TEXT", "TEXT"] : List String).getD i.1 "")) ∧
    (initSubclass "Speaker" [("name", .str), ("company", .str)]).tableName = "speakers" ∧
    Model.create (initSubclass "Speaker" [("name", .str), ("company", .str)]) =
      .ok "CREATE TABLE speakers (id INTEGER PRIMARY KEY, name TEXT, company TEXT)" := by
  have hall : ∀ i : Fin ([("name", PyType.str), ("company", PyType.str)].length),
      Field.sql_type ⟨([("name", PyType.str), ("company", PyType.str)].get i).1,
          ([("name", PyType.str), ("company", PyType.str)].get i).2⟩
        = .ok ((["TEXT", "TEXT"] : List String).getD i.1 "") := by
    intro i
    fin_cases i <;> rfl
  have h := claim_C8_create_table "Speaker" [("name", .str), ("company", .str)]
    ["TEXT", "TEXT"] hall rfl
  exact ⟨hall, h.1, h.2⟩

/-! ### Claims about save -/

theorem except_map_ok {a b : Type} (f : a → b) (x : a) :
    (f <$> (Except.ok x : Except Err a)) = .ok (f x) := rfl

theorem except_map_error {a b : Type} (f : a → b) (e : Err) :
    (f <$> (Except.error e : Except Err a)) = .error e := rfl

/-- The mapping computed by `save` has exactly the declared column names as
keys, in declaration order. -/
theorem saveValues_keys (values : Dict) (cols : List (String × PyType)) :
    ∀ sqlValues : Dict, saveValues values cols = .ok sqlValues →
      sqlValues.map Prod.fst = cols.map Prod.fst := by
  induction cols with
  | nil =>
      intro sq h
      simp only [saveValues] at h
      injection h with h
      subst h
      rfl
  | cons p rest ih =>
      intro sq h
      simp only [saveValues] at h
      cases hg : getattrV values p.1 with
      | error e =>
          rw [hg, except_bind_error] at h
          exact absurd h (by simp)
      | ok v =>
          rw [hg, except_bind_ok] at h
          cases hts : Field.to_sql ⟨p.1, p.2⟩ v with
          | error e =>
              rw [hts, except_bind_error] at h
              exact absurd h (by simp)
          | ok w =>
              rw [hts, except_bind_ok] at h
              cases hrest : saveValues values rest with
              | error e =>
                  rw [hrest, except_bind_error] at h
                  exact absurd h (by simp)
              | ok more =>
                  rw [hrest, except_bind_ok, except_pure_eq_ok] at h
                  injection h with h
                  subst h
                  simp [ih more hrest]

theorem dictMerge_id_cons (idv : Value) (sqlValues : Dict)
    (hnid : "id" ∉ sqlValues.map Prod.fst) (hnd : (sqlValues.map Prod.fst).Nodup) :
    dictMerge [("id", idv)] sqlValues = ("id", idv) :: sqlValues := by
  rw [dictMerge_of_disjoint _ _ ?_ hnd]
  · rfl
  · intro k hk
    simp only [List.map_cons, List.map_nil, List.mem_singleton]
    intro hkid
    subst hkid
    exact hnid hk

/-- C4 counterexample: the update-versus-insert decision is made on
truthiness, not nullness.  An instance of a one-column Talk schema whose
identifier is the non-null integer `0` is re-inserted: `save` emits an
INSERT statement (not an UPDATE keyed by id) and overwrites the already
assigned identifier `0` with the store's generated identifier `7`. -/
theorem claim_C4_counterexample :
    (([("id", Value.vInt 0), ("duration", Value.vInt 45)] : Dict).lookup "id"
       = some (.vInt 0)) ∧
    Model.save ⟨"Talk", "talks", [("duration", .int)]⟩
        [("id", .vInt 0), ("duration", .vInt 45)] 7
      = .ok ("INSERT INTO talks (duration) VALUES (:duration)",
             [("duration", .vInt 45)],
             [("id", .vInt 7), ("duration", .vInt 45)]) :=
  ⟨rfl, rfl⟩

/-- C4 amended: `save` decides update versus insert on the truthiness of
the identifier, not its nullness.  A truthy (nonzero, non-null) identifier
triggers an update keyed by `id`, binding all declared field values plus
the id, and leaves the instance — its identifier included — unchanged; a
falsy identifier (null, or the non-null integer `0`) triggers an insert
over all declared fields excluding `id`, after which the identifier is
assigned from the store's generated identifier (overwriting a zero
identifier).  An identifier once assigned a nonzero value is never removed
or changed by `save`. -/
theorem claim_C4_save (m : Model) (values : Dict) (gen : Int) (sqlValues : Dict)
    (idv : Value)
    (hsql : saveValues values m.cols = .ok sqlValues)
    (hid : values.lookup "id" = some idv)
    (hnid : "id" ∉ m.cols.map Prod.fst)
    (hnd : (m.cols.map Prod.fst).Nodup) :
    (truthy idv = true →
      Model.save m values gen =
        .ok ("UPDATE " ++ m.tableName ++ " SET " ++
              String.intercalate ", " (m.cols.map (fun p => p.1 ++ " = :" ++ p.1)) ++
              " WHERE id=:id",
            ("id", idv) :: sqlValues, values)) ∧
    (truthy idv = false →
      Model.save m values gen =
        .ok ("INSERT INTO " ++ m.tableName ++ " (" ++
              String.intercalate ", " (m.cols.map Prod.fst) ++ ") VALUES (" ++
              String.intercalate ", " (m.cols.map (fun p => ":" ++ p.1)) ++ ")",
            sqlValues, dictInsert values "id" (.vInt gen))) ∧
    sqlValues.map Prod.fst = m.cols.map Prod.fst ∧
    (dictInsert values "id" (.vInt gen)).lookup "id" = some (.vInt gen) := by
  have hkeys := saveValues_keys values m.cols sqlValues hsql
  have hidok : getattrV values "id" = .ok idv := by
    simp [getattrV, hid]
  have hmerge : dictMerge [("id", idv)] sqlValues = ("id", idv) :: sqlValues := by
    apply dictMerge_id_cons idv sqlValues
    · rw [hkeys]; exact hnid
    · rw [hkeys]; exact hnd
  refine ⟨fun ht => ?_, fun hf => ?_, hkeys,
    dictInsert_lookup_self values "id" (.vInt gen)⟩
  · simp only [Model.save, hsql, hidok, except_bind_ok, ht, if_true, hmerge]
    rfl
  · simp only [Model.save, hsql, hidok, except_bind_ok, hf, Bool.false_eq_true,
      if_false]
    rfl

theorem claim_C4_save_witness :
    (saveValues [("id", Value.vInt 1), ("title", Value.vStr "t"), ("duration", Value.vInt 45)]
        [("title", PyType.str), ("duration", PyType.int)]
      = .ok [("title", .vStr "t"), ("duration", .vInt 45)]) ∧
    (([("id", Value.vInt 1), ("title", Value.vStr "t"), ("duration", Value.vInt 45)] : Dict).lookup "id"
      = some (.vInt 1)) ∧
    "id" ∉ (["title", "duration"] : List String) ∧
    (["title", "duration"] : List String).Nodup ∧
    truthy (.vInt 1) = true ∧
    Model.save ⟨"Talk", "talks", [("title", .str), ("duration", .int)]⟩
        [("id", .vInt 1), ("title", .vStr "t"), ("duration", .vInt 45)] 9
      = .ok ("UPDATE talks SET title = :title, duration = :duration WHERE id=:id",
             [("id", .vInt 1), ("title", .vStr "t"), ("duration", .vInt 45)],
             [("id", .vInt 1), ("title", .vStr "t"), ("duration", .vInt 45)]) := by
  refine ⟨rfl, rfl, by decide, by decide, rfl, ?_⟩
  exact (claim_C4_save ⟨"Talk", "talks", [("title", .str), ("duration", .int)]⟩
    [("id", .vInt 1), ("title", .vStr "t"), ("duration", .vInt 45)] 9
    [("title", .vStr "t"), ("duration", .vInt 45)] (.vInt 1)
    rfl rfl (by decide) (by decide)).1 rfl

/-! ### Equation lemmas for hydrate -/

theorem hydrate_zero (store : Store) (cols : List (String × PyType))
    (kwargs : List (String × Value)) (values : Dict) :
    hydrate store 0 cols kwargs values = .error .recursionError := rfl

theorem hydrate_succ_nil (store : Store) (fuel : Nat) (cols : List (String × PyType))
    (values : Dict) : hydrate store (fuel + 1) cols [] values = .ok values := rfl

theorem hydrate_cons_id (store : Store) (fuel : Nat) (cols : List (String × PyType))
    (kwargs : List (String × Value)) (values : Dict) (v : Value) :
    hydrate store (fuel + 1) cols (("id", v) :: kwargs) values
      = hydrate store fuel cols kwargs (dictInsert values "id" v) := by
  simp [hydrate]

theorem hydrate_cons_notfound (store : Store) (fuel : Nat)
    (cols : List (String × PyType)) (kwargs : List (String × Value)) (values : Dict)
    (key : String) (v : Value) (hk : key ≠ "id")
    (hfind : (cols.find? (fun p => p.1 == key)).map Prod.snd = none) :
    hydrate store (fuel + 1) cols ((key, v) :: kwargs) values
      = hydrate store fuel cols kwargs values := by
  simp only [hydrate, if_neg hk, hfind]

theorem hydrate_cons_ref_norow (store : Store) (fuel : Nat)
    (cols : List (String × PyType)) (kwargs : List (String × Value)) (values : Dict)
    (key : String) (kk : Int) (cn tn : String) (tcols : List (String × PyType))
    (hk : key ≠ "id")
    (hfind : (cols.find? (fun p => p.1 == key)).map Prod.snd = some (.ref cn tn tcols))
    (hrows : rowsMatchingId store tn kk = []) :
    hydrate store (fuel + 1) cols ((key, .vInt kk) :: kwargs) values
      = .error .stopIteration := by
  simp only [hydrate, if_neg hk, hfind, hrows]

theorem hydrate_cons_ref_ok (store : Store) (fuel : Nat)
    (cols : List (String × PyType)) (kwargs : List (String × Value)) (values : Dict)
    (key : String) (kk : Int) (cn tn : String) (tcols : List (String × PyType))
    (r : Row) (rs : List Row) (ivalues : Dict)
    (hk : key ≠ "id")
    (hfind : (cols.find? (fun p => p.1 == key)).map Prod.snd = some (.ref cn tn tcols))
    (hrows : rowsMatchingId store tn kk = r :: rs)
    (hin : hydrate store fuel tcols r [("id", .vNone)] = .ok ivalues) :
    hydrate store (fuel + 1) cols ((key, .vInt kk) :: kwargs) values
      = hydrate store fuel cols kwargs (dictInsert values key (.vInst cn ivalues)) := by
  simp only [hydrate, if_neg hk, hfind, hrows, hin]

theorem hydrate_cons_ref_error (store : Store) (fuel : Nat)
    (cols : List (String × PyType)) (kwargs : List (String × Value)) (values : Dict)
    (key : String) (kk : Int) (cn tn : String) (tcols : List (String × PyType))
    (r : Row) (rs : List Row) (e : Err)
    (hk : key ≠ "id")
    (hfind : (cols.find? (fun p => p.1 == key)).map Prod.snd = some (.ref cn tn tcols))
    (hrows : rowsMatchingId store tn kk = r :: rs)
    (hin : hydrate store fuel tcols r [("id", .vNone)] = .error e) :
    hydrate store (fuel + 1) cols ((key, .vInt kk) :: kwargs) values
      = .error e := by
  simp only [hydrate, if_neg hk, hfind, hrows, hin]

theorem hydrate_cons_nonref (store : Store) (fuel : Nat)
    (cols : List (String × PyType)) (kwargs : List (String × Value)) (values : Dict)
    (key : String) (v : Value) (ty : PyType) (hk : key ≠ "id")
    (hfind : (cols.find? (fun p => p.1 == key)).map Prod.snd = some ty)
    (hty : ∀ cn tn tcols, ty ≠ .ref cn tn tcols) :
    hydrate store (fuel + 1) cols ((key, v) :: kwargs) values
      = hydrate store fuel cols kwargs (dictInsert values key v) := by
  cases ty with
  | ref cn tn tcols => exact absurd rfl (hty cn tn tcols)
  | int => simp only [hydrate, if_neg hk, hfind]
  | str => simp only [hydrate, if_neg hk, hfind]
  | other tyName => simp only [hydrate, if_neg hk, hfind]

theorem hydrate_cons_ref_nonint (store : Store) (fuel : Nat)
    (cols : List (String × PyType)) (kwargs : List (String × Value)) (values : Dict)
    (key : String) (v : Value) (cn tn : String) (tcols : List (String × PyType))
    (hk : key ≠ "id")
    (hfind : (cols.find? (fun p => p.1 == key)).map Prod.snd = some (.ref cn tn tcols))
    (hv : ∀ kk : Int, v ≠ .vInt kk) :
    hydrate store (fuel + 1) cols ((key, v) :: kwargs) values
      = hydrate store fuel cols kwargs (dictInsert values key v) := by
  cases v with
  | vInt kk => exact absurd rfl (hv kk)
  | vNone => simp only [hydrate, if_neg hk, hfind]
  | vStr s => simp only [hydrate, if_neg hk, hfind]
  | vInst c vs => simp only [hydrate, if_neg hk, hfind]
  | vField f => simp only [hydrate, if_neg hk, hfind]

/-! ### Store lemmas -/

theorem mem_of_lookup_eq_some {b : Type} {l : List (String × b)} {k : String} {x : b}
    (h : l.lookup k = some x) : (k, x) ∈ l := by
  obtain ⟨l1, l2, heq, -⟩ := List.lookup_eq_some_iff.1 h
  rw [heq]
  exact List.mem_append.2 (Or.inr (List.mem_cons_self _ _))

theorem storeWF_rows {store : Store} (hwf : storeWF store) (tn : String) {r : Row}
    (hr : r ∈ storeRows store tn) : (r.map Prod.fst).Nodup := by
  rw [storeRows] at hr
  cases hl : store.lookup tn with
  | none => rw [hl] at hr; simp at hr
  | some rows =>
      rw [hl] at hr
      exact hwf (tn, rows) (mem_of_lookup_eq_some hl) r hr

theorem sqlValueEq_int {w : Value} {kk : Int} (h : sqlValueEq w (.vInt kk) = true) :
    w = .vInt kk := by
  cases w <;> simp [sqlValueEq] at h ⊢
  exact h

/-- The first row of a nonempty resolution query result carries the
requested identifier and comes from the referenced table. -/
theorem rowsMatchingId_head {store : Store} {tn : String} {kk : Int} {r : Row}
    {rs : List Row} (h : rowsMatchingId store tn kk = r :: rs) :
    r.lookup "id" = some (.vInt kk) ∧ r ∈ storeRows store tn := by
  have hmem : r ∈ rowsMatchingId store tn kk := by
    rw [h]; exact List.mem_cons_self _ _
  rw [rowsMatchingId] at hmem
  have := List.mem_filter.1 hmem
  refine ⟨?_, this.1⟩
  have heval := this.2
  simp only [evalCondition, Field.eq] at heval
  cases hlu : r.lookup "id" with
  | none => rw [hlu] at heval; simp at heval
  | some w =>
      rw [hlu] at heval
      simp only [Bool.and_eq_true, beq_iff_eq] at heval
      rw [sqlValueEq_int heval.2]

/-! ### What hydration does to each key of the values mapping -/

/-- Populating an instance never touches a key that is not among the
keyword arguments. -/
theorem hydrate_preserves (store : Store) (key : String) :
    ∀ (kwargs : List (String × Value)) (fuel : Nat) (cols : List (String × PyType))
      (values vals' : Dict),
      hydrate store fuel cols kwargs values = .ok vals' →
      key ∉ kwargs.map Prod.fst →
      vals'.lookup key = values.lookup key := by
  intro kwargs
  induction kwargs with
  | nil =>
      intro fuel cols values vals' h _
      cases fuel with
      | zero => rw [hydrate_zero] at h; exact absurd h (by simp)
      | succ fuel =>
          rw [hydrate_succ_nil] at h
          injection h with h
          rw [h]
  | cons p rest ih =>
      intro fuel cols values vals' h hmem
      obtain ⟨k, v⟩ := p
      have hkey : key ≠ k := fun hh => hmem (by simp [hh])
      have hrest : key ∉ rest.map Prod.fst := fun hh => hmem (by simp [hh])
      cases fuel with
      | zero => rw [hydrate_zero] at h; exact absurd h (by simp)
      | succ fuel =>
          by_cases hkid : k = "id"
          · subst hkid
            rw [hydrate_cons_id] at h
            rw [ih fuel cols _ vals' h hrest]
            exact dictInsert_lookup_ne values "id" key v hkey
          · cases hfind : (cols.find? (fun p => p.1 == k)).map Prod.snd with
            | none =>
                rw [hydrate_cons_notfound store fuel cols rest values k v hkid hfind] at h
                exact ih fuel cols _ _ h hrest
            | some ty =>
                by_cases href : ∃ cn tn tcols, ty = PyType.ref cn tn tcols
                · obtain ⟨cn, tn, tcols, rfl⟩ := href
                  by_cases hint : ∃ kk : Int, v = Value.vInt kk
                  · obtain ⟨kk, rfl⟩ := hint
                    cases hrows : rowsMatchingId store tn kk with
                    | nil =>
                        rw [hydrate_cons_ref_norow store fuel cols rest values k kk cn tn
                          tcols hkid hfind hrows] at h
                        exact absurd h (by simp)
                    | cons r rs =>
                        cases hin : hydrate store fuel tcols r [("id", .vNone)] with
                        | error e =>
                            rw [hydrate_cons_ref_error store fuel cols rest values k kk cn tn
                              tcols r rs e hkid hfind hrows hin] at h
                            exact absurd h (by simp)
                        | ok ivalues =>
                            rw [hydrate_cons_ref_ok store fuel cols rest values k kk cn tn
                              tcols r rs ivalues hkid hfind hrows hin] at h
                            rw [ih fuel cols _ _ h hrest]
                            exact dictInsert_lookup_ne values k key _ hkey
                  · have hv : ∀ kk : Int, v ≠ Value.vInt kk := fun kk hh => hint ⟨kk, hh⟩
                    rw [hydrate_cons_ref_nonint store fuel cols rest values k v cn tn tcols
                      hkid hfind hv] at h
                    rw [ih fuel cols _ _ h hrest]
                    exact dictInsert_lookup_ne values k key v hkey
                · have hty : ∀ cn tn tcols, ty ≠ PyType.ref cn tn tcols :=
                    fun cn tn tcols hh => href ⟨cn, tn, tcols, hh⟩
                  rw [hydrate_cons_nonref store fuel cols rest values k v ty hkid hfind hty] at h
                  rw [ih fuel cols _ _ h hrest]
                  exact dictInsert_lookup_ne values k key v hkey

/-- When the keyword arguments carry an `id` entry (and no duplicate keys),
the populated instance's identifier is exactly that entry's value: the
implicit `id` descriptor stores it unchanged. -/
theorem hydrate_id (store : Store) (w : Value) :
    ∀ (kwargs : List (String × Value)) (fuel : Nat) (cols : List (String × PyType))
      (values vals' : Dict),
      hydrate store fuel cols kwargs values = .ok vals' →
      (kwargs.map Prod.fst).Nodup →
      kwargs.lookup "id" = some w →
      vals'.lookup "id" = some w := by
  intro kwargs
  induction kwargs with
  | nil =>
      intro fuel cols values vals' _ _ hlu
      simp at hlu
  | cons p rest ih =>
      intro fuel cols values vals' h hnd hlu
      obtain ⟨k, v⟩ := p
      rw [List.map_cons, List.nodup_cons] at hnd
      cases fuel with
      | zero => rw [hydrate_zero] at h; exact absurd h (by simp)
      | succ fuel =>
          by_cases hkid : k = "id"
          · subst hkid
            rw [List.lookup_cons_self] at hlu
            injection hlu with hlu
            rw [hydrate_cons_id] at h
            rw [hydrate_preserves store "id" rest fuel cols _ vals' h hnd.1, ← hlu]
            exact dictInsert_lookup_self values "id" v
          · have hlu' : rest.lookup "id" = some w := by
              rw [List.lookup_cons] at hlu
              rw [show ("id" == k) = false by simpa using fun hh => hkid hh.symm] at hlu
              exact hlu
            cases hfind : (cols.find? (fun p => p.1 == k)).map Prod.snd with
            | none =>
                rw [hydrate_cons_notfound store fuel cols rest values k v hkid hfind] at h
                exact ih fuel cols _ _ h hnd.2 hlu'
            | some ty =>
                by_cases href : ∃ cn tn tcols, ty = PyType.ref cn tn tcols
                · obtain ⟨cn, tn, tcols, rfl⟩ := href
                  by_cases hint : ∃ kk : Int, v = Value.vInt kk
                  · obtain ⟨kk, rfl⟩ := hint
                    cases hrows : rowsMatchingId store tn kk with
                    | nil =>
                        rw [hydrate_cons_ref_norow store fuel cols rest values k kk cn tn
                          tcols hkid hfind hrows] at h
                        exact absurd h (by simp)
                    | cons r rs =>
                        cases hin : hydrate store fuel tcols r [("id", .vNone)] with
                        | error e =>
                            rw [hydrate_cons_ref_error store fuel cols rest values k kk cn tn
                              tcols r rs e hkid hfind hrows hin] at h
                            exact absurd h (by simp)
                        | ok ivalues =>
                            rw [hydrate_cons_ref_ok store fuel cols rest values k kk cn tn
                              tcols r rs ivalues hkid hfind hrows hin] at h
                            exact ih fuel cols _ _ h hnd.2 hlu'
                  · have hv : ∀ kk : Int, v ≠ Value.vInt kk := fun kk hh => hint ⟨kk, hh⟩
                    rw [hydrate_cons_ref_nonint store fuel cols rest values k v cn tn tcols
                      hkid hfind hv] at h
                    exact ih fuel cols _ _ h hnd.2 hlu'
                · have hty : ∀ cn tn tcols, ty ≠ PyType.ref cn tn tcols :=
                    fun cn tn tcols hh => href ⟨cn, tn, tcols, hh⟩
                  rw [hydrate_cons_nonref store fuel cols rest values k v ty hkid hfind hty] at h
                  exact ih fuel cols _ _ h hnd.2 hlu'

/-- Constructing an instance from keyword arguments in which a declared
reference column holds a raw integer identifier `kk` stores, under that
column's name, a hydrated instance of the referenced schema whose own
identifier is `kk` — never the raw integer. -/
theorem hydrate_ref_field (store : Store) (key : String) (cn tn : String)
    (tcols : List (String × PyType)) (kk : Int) (hwf : storeWF store) :
    ∀ (kwargs : List (String × Value)) (fuel : Nat) (cols : List (String × PyType))
      (values vals' : Dict),
      hydrate store fuel cols kwargs values = .ok vals' →
      (kwargs.map Prod.fst).Nodup →
      key ≠ "id" →
      (cols.find? (fun p => p.1 == key)).map Prod.snd = some (.ref cn tn tcols) →
      kwargs.lookup key = some (.vInt kk) →
      ∃ ivalues, vals'.lookup key = some (.vInst cn ivalues) ∧
        ivalues.lookup "id" = some (.vInt kk) := by
  intro kwargs
  induction kwargs with
  | nil =>
      intro fuel cols values vals' _ _ _ _ hlu
      simp at hlu
  | cons p rest ih =>
      intro fuel cols values vals' h hnd hkid hfind hlu
      obtain ⟨k, v⟩ := p
      rw [List.map_cons, List.nodup_cons] at hnd
      cases fuel with
      | zero => rw [hydrate_zero] at h; exact absurd h (by simp)
      | succ fuel =>
          by_cases hkk : k = key
          · subst hkk
            rw [List.lookup_cons_self] at hlu
            injection hlu with hlu
            subst hlu
            cases hrows : rowsMatchingId store tn kk with
            | nil =>
                rw [hydrate_cons_ref_norow store fuel cols rest values k kk cn tn tcols
                  hkid hfind hrows] at h
                exact absurd h (by simp)
            | cons r rs =>
                cases hin : hydrate store fuel tcols r [("id", .vNone)] with
                | error e =>
                    rw [hydrate_cons_ref_error store fuel cols rest values k kk cn tn tcols
                      r rs e hkid hfind hrows hin] at h
                    exact absurd h (by simp)
                | ok ivalues =>
                    rw [hydrate_cons_ref_ok store fuel cols rest values k kk cn tn tcols
                      r rs ivalues hkid hfind hrows hin] at h
                    refine ⟨ivalues, ?_, ?_⟩
                    · rw [hydrate_preserves store k rest fuel cols _ vals' h hnd.1]
                      exact dictInsert_lookup_self values k _
                    · obtain ⟨hrid, hrmem⟩ := rowsMatchingId_head hrows
                      exact hydrate_id store (.vInt kk) r fuel tcols _ ivalues hin
                        (storeWF_rows hwf tn hrmem) hrid
          · have hlu' : rest.lookup key = some (.vInt kk) := by
              rw [List.lookup_cons] at hlu
              rw [show (key == k) = false by simpa using fun hh => hkk hh.symm] at hlu
              exact hlu
            by_cases hkid2 : k = "id"
            · subst hkid2
              rw [hydrate_cons_id] at h
              exact ih fuel cols _ _ h hnd.2 hkid hfind hlu'
            · cases hfind2 : (cols.find? (fun p => p.1 == k)).map Prod.snd with
              | none =>
                  rw [hydrate_cons_notfound store fuel cols rest values k v hkid2 hfind2] at h
                  exact ih fuel cols _ _ h hnd.2 hkid hfind hlu'
              | some ty =>
                  by_cases href : ∃ cn2 tn2 tcols2, ty = PyType.ref cn2 tn2 tcols2
                  · obtain ⟨cn2, tn2, tcols2, rfl⟩ := href
                    by_cases hint : ∃ kk2 : Int, v = Value.vInt kk2
                    · obtain ⟨kk2, rfl⟩ := hint
                      cases hrows : rowsMatchingId store tn2 kk2 with
                      | nil =>
                          rw [hydrate_cons_ref_norow store fuel cols rest values k kk2 cn2 tn2
                            tcols2 hkid2 hfind2 hrows] at h
                          exact absurd h (by simp)
                      | cons r rs =>
                          cases hin : hydrate store fuel tcols2 r [("id", .vNone)] with
                          | error e =>
                              rw [hydrate_cons_ref_error store fuel cols rest values k kk2 cn2
                                tn2 tcols2 r rs e hkid2 hfind2 hrows hin] at h
                              exact absurd h (by simp)
                          | ok ivalues =>
                              rw [hydrate_cons_ref_ok store fuel cols rest values k kk2 cn2
                                tn2 tcols2 r rs ivalues hkid2 hfind2 hrows hin] at h
                              exact ih fuel cols _ _ h hnd.2 hkid hfind hlu'
                    · have hv : ∀ kk2 : Int, v ≠ Value.vInt kk2 := fun kk2 hh => hint ⟨kk2, hh⟩
                      rw [hydrate_cons_ref_nonint store fuel cols rest values k v cn2 tn2 tcols2
                        hkid2 hfind2 hv] at h
                      exact ih fuel cols _ _ h hnd.2 hkid hfind hlu'
                  · have hty : ∀ cn2 tn2 tcols2, ty ≠ PyType.ref cn2 tn2 tcols2 :=
                      fun cn2 tn2 tcols2 hh => href ⟨cn2, tn2, tcols2, hh⟩
                    rw [hydrate_cons_nonref store fuel cols rest values k v ty hkid2 hfind2
                      hty] at h
                    exact ih fuel cols _ _ h hnd.2 hkid hfind hlu'

/-! ### Claims about reference resolution -/

/-- C5: assigning a raw integer identifier to a schema-reference field
eagerly resolves it — on success the stored value is a hydrated instance of
the referenced schema whose identifier equals the assigned integer, never
the raw integer itself; any other assigned value is stored unchanged; and
an instance constructed from a raw row whose reference column holds `kk`
has, immediately after construction, that hydrated instance (with
identifier `kk`) as the field's value. -/
theorem claim_C5_reference_resolution :
    (∀ (store : Store) (fuel : Nat) (f : Field) (values : Dict) (kk : Int)
       (cn tn : String) (tcols : List (String × PyType)) (vals' : Dict),
      storeWF store →
      f.py_type = .ref cn tn tcols →
      Field.set store fuel f values (.vInt kk) = .ok vals' →
      ∃ ivalues, vals'.lookup f.name = some (.vInst cn ivalues) ∧
        ivalues.lookup "id" = some (.vInt kk)) ∧
    (∀ (store : Store) (fuel : Nat) (name : String) (ty : PyType) (values : Dict)
       (v : Value),
      (∀ cn tn tcols, ty ≠ .ref cn tn tcols) ∨ (∀ kk : Int, v ≠ .vInt kk) →
      Field.set store fuel ⟨name, ty⟩ values v = .ok (dictInsert values name v)) ∧
    (∀ (store : Store) (fuel : Nat) (m : Model) (row : List (String × Value))
       (vals' : Dict) (key cn tn : String) (tcols : List (String × PyType)) (kk : Int),
      storeWF store →
      Model.init store fuel m row = .ok vals' →
      (row.map Prod.fst).Nodup →
      key ≠ "id" →
      (m.cols.find? (fun p => p.1 == key)).map Prod.snd = some (.ref cn tn tcols) →
      row.lookup key = some (.vInt kk) →
      ∃ ivalues, vals'.lookup key = some (.vInst cn ivalues) ∧
        ivalues.lookup "id" = some (.vInt kk)) := by
  refine ⟨?_, ?_, ?_⟩
  · intro store fuel f values kk cn tn tcols vals' hwf hpy h
    simp only [Field.set, hpy] at h
    cases hrows : rowsMatchingId store tn kk with
    | nil =>
        simp only [hrows] at h
        exact absurd h (by simp)
    | cons r rs =>
        simp only [hrows] at h
        cases hin : hydrate store fuel tcols r [("id", .vNone)] with
        | error e =>
            simp only [hin] at h
            exact absurd h (by simp)
        | ok ivalues =>
            simp only [hin, Except.ok.injEq] at h
            refine ⟨ivalues, ?_, ?_⟩
            · rw [← h]
              exact dictInsert_lookup_self values f.name _
            · obtain ⟨hrid, hrmem⟩ := rowsMatchingId_head hrows
              exact hydrate_id store (.vInt kk) r fuel tcols _ ivalues hin
                (storeWF_rows hwf tn hrmem) hrid
  · intro store fuel name ty values v hcase
    rcases hcase with hty | hv
    · cases ty with
      | ref cn tn tcols => exact absurd rfl (hty cn tn tcols)
      | int => rfl
      | str => rfl
      | other tyName => rfl
    · cases v with
      | vInt kk => exact absurd rfl (hv kk)
      | vNone => cases ty <;> rfl
      | vStr sv => cases ty <;> rfl
      | vInst c vs => cases ty <;> rfl
      | vField g => cases ty <;> rfl
  · intro store fuel m row vals' key cn tn tcols kk hwf h hnd hkid hfind hlu
    exact hydrate_ref_field store key cn tn tcols kk hwf row fuel m.cols _ vals'
      h hnd hkid hfind hlu

theorem claim_C5_reference_resolution_witness :
    storeWF [("speakers",
        [[("id", Value.vInt 1), ("name", Value.vStr "Jonathan"),
          ("company", Value.vStr "solute")]])] ∧
    Model.init [("speakers",
        [[("id", Value.vInt 1), ("name", Value.vStr "Jonathan"),
          ("company", Value.vStr "solute")]])] 10
      ⟨"Talk", "talks",
        [("title", .str), ("duration", .int),
         ("speaker", .ref "Speaker" "speakers" [("name", .str), ("company", .str)])]⟩
      [("id", .vInt 1), ("title", .vStr "ORM in 45min"), ("duration", .vInt 45),
       ("speaker", .vInt 1)]
      = .ok [("id", .vInt 1), ("title", .vStr "ORM in 45min"), ("duration", .vInt 45),
             ("speaker", .vInst "Speaker"
               [("id", .vInt 1), ("name", .vStr "Jonathan"),
                ("company", .vStr "solute")])] ∧
    (∃ ivalues,
      (([("id", Value.vInt 1), ("title", Value.vStr "ORM in 45min"),
         ("duration", Value.vInt 45),
         ("speaker", Value.vInst "Speaker"
           [("id", Value.vInt 1), ("name", Value.vStr "Jonathan"),
            ("company", Value.vStr "solute")])] : Dict).lookup "speaker"
        = some (.vInst "Speaker" ivalues)) ∧
      ivalues.lookup "id" = some (.vInt 1)) := by
  refine ⟨by unfold storeWF; decide, rfl, ?_⟩
  exact claim_C5_reference_resolution.2.2
    [("speakers",
      [[("id", Value.vInt 1), ("name", Value.vStr "Jonathan"),
        ("company", Value.vStr "solute")]])] 10
    ⟨"Talk", "talks",
      [("title", .str), ("duration", .int),
       ("speaker", .ref "Speaker" "speakers" [("name", .str), ("company", .str)])]⟩
    [("id", .vInt 1), ("title", .vStr "ORM in 45min"), ("duration", .vInt 45),
     ("speaker", .vInt 1)]
    [("id", .vInt 1), ("title", .vStr "ORM in 45min"), ("duration", .vInt 45),
     ("speaker", .vInst "Speaker"
       [("id", .vInt 1), ("name", .vStr "Jonathan"), ("company", .vStr "solute")])]
    "speaker" "Speaker" "speakers" [("name", .str), ("company", .str)] 1
    (by unfold storeWF; decide) rfl (by decide) (by decide) rfl rfl

/-- C10: assigning a raw integer identifier to a schema-reference field
when the referenced table has no row with that identifier raises
`StopIteration` (the exhausted-sequence error of `next()` on an empty
generator) — the assignment produces no updated value mapping, so the
instance's `_values` is left unchanged for that field; when more than one
row matches, the first row the store yields is hydrated and stored, without
any error. -/
theorem claim_C10_set_resolution_errors :
    (∀ (store : Store) (fuel : Nat) (name : String) (values : Dict) (kk : Int)
       (cn tn : String) (tcols : List (String × PyType)),
      rowsMatchingId store tn kk = [] →
      Field.set store fuel ⟨name, .ref cn tn tcols⟩ values (.vInt kk)
        = .error .stopIteration) ∧
    (∀ (store : Store) (fuel : Nat) (name : String) (values : Dict) (kk : Int)
       (cn tn : String) (tcols : List (String × PyType)) (r1 r2 : Row) (rs : List Row)
       (ivalues : Dict),
      rowsMatchingId store tn kk = r1 :: r2 :: rs →
      hydrate store fuel tcols r1 [("id", .vNone)] = .ok ivalues →
      Field.set store fuel ⟨name, .ref cn tn tcols⟩ values (.vInt kk)
        = .ok (dictInsert values name (.vInst cn ivalues))) := by
  constructor
  · intro store fuel name values kk cn tn tcols hrows
    simp only [Field.set, hrows]
  · intro store fuel name values kk cn tn tcols r1 r2 rs ivalues hrows hin
    simp only [Field.set, hrows, hin]

theorem claim_C10_set_resolution_errors_witness :
    (rowsMatchingId [("speakers",
        [[("id", Value.vInt 2), ("name", Value.vStr "A")],
         [("id", Value.vInt 2), ("name", Value.vStr "B")]])] "speakers" 5 = []) ∧
    Field.set [("speakers",
        [[("id", Value.vInt 2), ("name", Value.vStr "A")],
         [("id", Value.vInt 2), ("name", Value.vStr "B")]])] 5
      ⟨"speaker", .ref "Speaker" "speakers" [("name", .str)]⟩
      [("id", .vNone)] (.vInt 5) = .error .stopIteration ∧
    (rowsMatchingId [("speakers",
        [[("id", Value.vInt 2), ("name", Value.vStr "A")],
         [("id", Value.vInt 2), ("name", Value.vStr "B")]])] "speakers" 2
      = [[("id", Value.vInt 2), ("name", Value.vStr "A")],
         [("id", Value.vInt 2), ("name", Value.vStr "B")]]) ∧
    (hydrate [("speakers",
        [[("id", Value.vInt 2), ("name", Value.vStr "A")],
         [("id", Value.vInt 2), ("name", Value.vStr "B")]])] 5
      [("name", .str)] [("id", Value.vInt 2), ("name", Value.vStr "A")]
      [("id", .vNone)]
      = .ok [("id", .vInt 2), ("name", .vStr "A")]) ∧
    Field.set [("speakers",
        [[("id", Value.vInt 2), ("name", Value.vStr "A")],
         [("id", Value.vInt 2), ("name", Value.vStr "B")]])] 5
      ⟨"speaker", .ref "Speaker" "speakers" [("name", .str)]⟩
      [("id", .vNone)] (.vInt 2)
      = .ok [("id", .vNone),
             ("speaker", .vInst "Speaker" [("id", .vInt 2), ("name", .vStr "A")])] := by
  refine ⟨rfl, ?_, rfl, rfl, ?_⟩
  · exact claim_C10_set_resolution_errors.1 _ 5 "speaker" [("id", .vNone)] 5
      "Speaker" "speakers" [("name", .str)] rfl
  · exact claim_C10_set_resolution_errors.2 _ 5 "speaker" [("id", .vNone)] 2
      "Speaker" "speakers" [("name", .str)]
      [("id", Value.vInt 2), ("name", Value.vStr "A")]
      [("id", Value.vInt 2), ("name", Value.vStr "B")] [] _ rfl rfl

end Orm
